import Mathlib

/-!
Shallow embedding of the G1 post-evacuation cleanup pipeline
(src/hotspot/share/gc/g1/g1YoungGCPostEvacuateTasks.cpp) and proofs of the
spec claims about it.

Machine integers (size_t, uint) are modelled as Nat; the only subtraction in
the embedded code (GrainWords - used_words in
FreeCSetStats::account_failed_region) never underflows under the region
invariant live_bytes <= GrainBytes, which the corresponding theorems carry as
an explicit hypothesis.
-/

/-- Word size in bytes on a 64-bit VM (HeapWordSize). -/
def HeapWordSize : Nat := 8

/-- Region kinds relevant to the cleanup pipeline. -/
inductive RegionKind
  | freeKind
  | young
  | old
  | humongousStart
  | humongousCont
deriving DecidableEq, Repr

/-- The per-region attributes the cleanup code reads and writes:
index (hrm_index), kind, used bytes, live-bytes estimate, remembered-set
occupancy, and collection-set membership. -/
structure HeapRegion where
  hrm_index : Nat
  kind : RegionKind
  used : Nat
  live_bytes : Nat
  rs_occupied : Nat
  in_collection_set : Bool
deriving DecidableEq, Repr

/-- HeapRegion::is_young(). -/
def HeapRegion.is_young (r : HeapRegion) : Bool :=
  r.kind = RegionKind.young

/-- Per-worker statistics for collection-set freeing (class FreeCSetStats). -/
structure FreeCSetStats where
  before_used_bytes : Nat
  after_used_bytes : Nat
  bytes_allocated_in_old_since_last_gc : Nat
  failure_used_words : Nat
  failure_waste_words : Nat
  rs_length : Nat
  regions_freed : Nat
deriving DecidableEq, Repr

/-- FreeCSetStats::FreeCSetStats(): all counters start at zero. -/
def FreeCSetStats.init : FreeCSetStats :=
  ⟨0, 0, 0, 0, 0, 0, 0⟩

/-- FreeCSetStats::merge_stats(other): pointwise sum of all seven counters. -/
def FreeCSetStats.merge_stats (s o : FreeCSetStats) : FreeCSetStats :=
  ⟨s.before_used_bytes + o.before_used_bytes,
   s.after_used_bytes + o.after_used_bytes,
   s.bytes_allocated_in_old_since_last_gc + o.bytes_allocated_in_old_since_last_gc,
   s.failure_used_words + o.failure_used_words,
   s.failure_waste_words + o.failure_waste_words,
   s.rs_length + o.rs_length,
   s.regions_freed + o.regions_freed⟩

/-- FreeCSetStats::account_failed_region(r). `gw` is HeapRegion::GrainWords,
`gb` is HeapRegion::GrainBytes (heap-configuration constants in the source). -/
def FreeCSetStats.account_failed_region (gw gb : Nat) (s : FreeCSetStats) (r : HeapRegion) :
    FreeCSetStats :=
  let used_words := r.live_bytes / HeapWordSize
  { s with
    failure_used_words := s.failure_used_words + used_words,
    failure_waste_words := s.failure_waste_words + (gw - used_words),
    after_used_bytes := s.after_used_bytes + r.used,
    bytes_allocated_in_old_since_last_gc :=
      s.bytes_allocated_in_old_since_last_gc + (if r.is_young then gb else 0) }

/-- FreeCSetStats::account_evacuated_region(r). -/
def FreeCSetStats.account_evacuated_region (s : FreeCSetStats) (r : HeapRegion) :
    FreeCSetStats :=
  { s with
    before_used_bytes := s.before_used_bytes + r.used,
    regions_freed := s.regions_freed + 1 }

/-- FreeCSetStats::account_rs_length(r). -/
def FreeCSetStats.account_rs_length (s : FreeCSetStats) (r : HeapRegion) :
    FreeCSetStats :=
  { s with rs_length := s.rs_length + r.rs_occupied }

/-- Claim C3: FreeCSetStats::account_failed_region updates the per-worker
statistics by exactly: failure-used-words += live_bytes / HeapWordSize,
failure-waste-words += GrainWords - that used-word count, after-used bytes +=
the region's used bytes, and bytes-allocated-in-old += GrainBytes iff the
region is young; the remaining counters are unchanged. The hypothesis
`hw` is the region invariant that the live estimate fits in the region,
which makes the truncated Nat subtraction agree with the C++ size_t
subtraction, and `hgb` (GrainBytes positive) makes the iff non-degenerate. -/
theorem account_failed_region_exact (gw gb : Nat) (s : FreeCSetStats) (r : HeapRegion)
    (hw : r.live_bytes / HeapWordSize ≤ gw) (hgb : 0 < gb) :
    (FreeCSetStats.account_failed_region gw gb s r).failure_used_words
        = s.failure_used_words + r.live_bytes / HeapWordSize ∧
    (FreeCSetStats.account_failed_region gw gb s r).failure_waste_words
        + r.live_bytes / HeapWordSize
        = s.failure_waste_words + gw ∧
    (FreeCSetStats.account_failed_region gw gb s r).failure_waste_words
        = s.failure_waste_words + (gw - r.live_bytes / HeapWordSize) ∧
    (FreeCSetStats.account_failed_region gw gb s r).after_used_bytes
        = s.after_used_bytes + r.used ∧
    ((FreeCSetStats.account_failed_region gw gb s r).bytes_allocated_in_old_since_last_gc
        = s.bytes_allocated_in_old_since_last_gc + gb ↔ r.is_young = true) ∧
    (FreeCSetStats.account_failed_region gw gb s r).before_used_bytes
        = s.before_used_bytes ∧
    (FreeCSetStats.account_failed_region gw gb s r).rs_length = s.rs_length ∧
    (FreeCSetStats.account_failed_region gw gb s r).regions_freed = s.regions_freed := by
  refine ⟨rfl, by simp [FreeCSetStats.account_failed_region]; omega,
    rfl, rfl, ?_, rfl, rfl, rfl⟩
  cases hy : r.is_young
  · simp [FreeCSetStats.account_failed_region, hy]
    omega
  · simp [FreeCSetStats.account_failed_region, hy]

/-- Example failed region of Scenario A: a young region with live_bytes = 1024
of a 4096-word (32768-byte) region, fully used. -/
def scenarioFailedRegion : HeapRegion :=
  ⟨2, RegionKind.young, 32768, 1024, 0, true⟩

/-- Witness for claim C3, at the spec's Scenario A numbers: GrainWords = 4096,
live = 1024 bytes, so failure-used-words = 128 and failure-waste-words
increases by 4096 - 128 = 3968. -/
theorem account_failed_region_exact_witness :
    scenarioFailedRegion.live_bytes / HeapWordSize ≤ 4096 ∧ 0 < 32768 ∧
    ((FreeCSetStats.account_failed_region 4096 32768 FreeCSetStats.init
        scenarioFailedRegion).failure_used_words
      = FreeCSetStats.init.failure_used_words
        + scenarioFailedRegion.live_bytes / HeapWordSize ∧
     (FreeCSetStats.account_failed_region 4096 32768 FreeCSetStats.init
        scenarioFailedRegion).failure_waste_words
        + scenarioFailedRegion.live_bytes / HeapWordSize
      = FreeCSetStats.init.failure_waste_words + 4096 ∧
     (FreeCSetStats.account_failed_region 4096 32768 FreeCSetStats.init
        scenarioFailedRegion).failure_waste_words
      = FreeCSetStats.init.failure_waste_words
        + (4096 - scenarioFailedRegion.live_bytes / HeapWordSize) ∧
     (FreeCSetStats.account_failed_region 4096 32768 FreeCSetStats.init
        scenarioFailedRegion).after_used_bytes
      = FreeCSetStats.init.after_used_bytes + scenarioFailedRegion.used ∧
     ((FreeCSetStats.account_failed_region 4096 32768 FreeCSetStats.init
        scenarioFailedRegion).bytes_allocated_in_old_since_last_gc
      = FreeCSetStats.init.bytes_allocated_in_old_since_last_gc + 32768 ↔
        scenarioFailedRegion.is_young = true) ∧
     (FreeCSetStats.account_failed_region 4096 32768 FreeCSetStats.init
        scenarioFailedRegion).before_used_bytes
      = FreeCSetStats.init.before_used_bytes ∧
     (FreeCSetStats.account_failed_region 4096 32768 FreeCSetStats.init
        scenarioFailedRegion).rs_length = FreeCSetStats.init.rs_length ∧
     (FreeCSetStats.account_failed_region 4096 32768 FreeCSetStats.init
        scenarioFailedRegion).regions_freed = FreeCSetStats.init.regions_freed) :=
  ⟨by decide, by decide,
   account_failed_region_exact 4096 32768 FreeCSetStats.init scenarioFailedRegion
     (by decide) (by decide)⟩

/-- Modelled from the spec: the card table's distinguished dirty value
(G1CardTable::dirty_card_val(); the card-table class itself is outside this
file's sources). The claims only need it to differ from the clean value used
in concrete scenarios. -/
def G1CardTable.dirty_card_val : Nat := 0

/-- State of the redirty closure (RedirtyLoggedCardTableEntryClosure): the
card table modelled as a list of card values indexed by card number, and the
_num_dirtied counter. -/
structure RedirtyState where
  table : List Nat
  num_dirtied : Nat
deriving DecidableEq, Repr

/-- RedirtyLoggedCardTableEntryClosure::will_become_free(hr): the region will
be freed during the FreeCollectionSet phase iff it is in the collection set
and has not had an evacuation failure. `efr` is the evacuation-failure set as
the list of failed region indices (G1EvacFailureRegions::contains). -/
def will_become_free (efr : List Nat) (hr : HeapRegion) : Bool :=
  hr.in_collection_set && !(efr.contains hr.hrm_index)

/-- RedirtyLoggedCardTableEntryClosure::do_card_ptr(card_ptr, worker_id).
`regions` maps a card number to its owning region (region_for_card, the
composition of G1CardTable::addr_for and heap_region_containing, which live
outside these sources). Dirties the card and bumps _num_dirtied unless the
owning region will become free. -/
def do_card_ptr (regions : Nat → HeapRegion) (efr : List Nat) (st : RedirtyState)
    (card : Nat) : RedirtyState :=
  let hr := regions card
  if !(will_become_free efr hr) then
    ⟨st.table.set card G1CardTable.dirty_card_val, st.num_dirtied + 1⟩
  else
    st

/-- G1CardTableEntryClosure::apply_to_buffer over one buffer node: fold
do_card_ptr over the node's logged card numbers. -/
def apply_to_buffer (regions : Nat → HeapRegion) (efr : List Nat) (st : RedirtyState)
    (cards : List Nat) : RedirtyState :=
  cards.foldl (do_card_ptr regions efr) st

/-- Scenario C heap: card 0 belongs to a to-be-freed evacuated region (index
1, in the collection set, not failed); every other card belongs to a retained
region (index 4, not in the collection set). -/
def scenarioCardRegions : Nat → HeapRegion :=
  fun c =>
    if c = 0 then ⟨1, RegionKind.young, 4096, 0, 0, true⟩
    else ⟨4, RegionKind.old, 4096, 0, 0, false⟩

/-- Claim C2: a logged card is set to the dirty value and _num_dirtied is
incremented iff its owning region will not be freed this pause, i.e. iff the
region is not in the collection set or is in the evacuation-failure set;
cards of to-be-freed regions are dropped with no write. In particular the
spec's Scenario C: a 3-card buffer with one card in a to-be-freed evacuated
region and two in retained regions yields num_dirtied = 2 with exactly those
two cards written dirty. -/
theorem do_card_ptr_dirty_iff_not_freed :
    (∀ (regions : Nat → HeapRegion) (efr : List Nat) (st : RedirtyState) (card : Nat),
      (will_become_free efr (regions card) = false →
        do_card_ptr regions efr st card
          = ⟨st.table.set card G1CardTable.dirty_card_val, st.num_dirtied + 1⟩) ∧
      (will_become_free efr (regions card) = true →
        do_card_ptr regions efr st card = st) ∧
      (will_become_free efr (regions card) = false ↔
        (regions card).in_collection_set = false
          ∨ efr.contains (regions card).hrm_index = true)) ∧
    apply_to_buffer scenarioCardRegions [] ⟨[1, 1, 1], 0⟩ [0, 1, 2] = ⟨[1, 0, 0], 2⟩ := by
  refine ⟨fun regions efr st card => ⟨fun h => ?_, fun h => ?_, ?_⟩, by decide⟩
  · simp [do_card_ptr, h]
  · simp [do_card_ptr, h]
  · simp [will_become_free]
    cases hcs : (regions card).in_collection_set <;>
      cases hc : efr.contains (regions card).hrm_index <;> simp_all

/-- Witness for claim C2: card 1 belongs to a retained region (not in the
collection set), so the closure dirties it and bumps the counter. -/
theorem do_card_ptr_dirty_iff_not_freed_witness :
    will_become_free [] (scenarioCardRegions 1) = false ∧
    do_card_ptr scenarioCardRegions [] ⟨[1, 1, 1], 0⟩ 1 = ⟨[1, 0, 1], 1⟩ :=
  ⟨by decide,
   (do_card_ptr_dirty_iff_not_freed.1 scenarioCardRegions [] ⟨[1, 1, 1], 0⟩ 1).1
     (by decide)⟩

/-- The cleanup subtask kinds registered by the two batched tasks
(G1PostEvacuateCollectionSetCleanupTask1 / ...Task2). -/
inductive SubTaskKind
  | mergePss
  | recalculateUsed
  | sampleCollectionSetCandidates
  | cleanupAfterScanHeapRoots
  | restoreRetainedRegions
  | updateDerivedPointers
  | eagerlyReclaimHumongousObjects
  | restorePreservedMarks
  | clearRetainedRegionBitmaps
  | redirtyLoggedCards
  | resizeTLABs
  | freeCollectionSet
deriving DecidableEq, Repr

/-- A subtask registration: its kind and whether it was registered with
add_serial_task (true) or add_parallel_task (false). -/
structure SubTaskReg where
  kind : SubTaskKind
  serial : Bool
deriving DecidableEq, Repr

/-- G1PostEvacuateCollectionSetCleanupTask1's constructor: the sequence of
add_serial_task / add_parallel_task registrations, as a function of
G1EvacFailureRegions::evacuation_failed() (`evacuation_failed`) and
SampleCollectionSetCandidatesTask::should_execute() (`should_sample`). -/
def task1_subtasks (evacuation_failed should_sample : Bool) : List SubTaskReg :=
  [⟨SubTaskKind.mergePss, true⟩, ⟨SubTaskKind.recalculateUsed, true⟩]
    ++ (if should_sample then [⟨SubTaskKind.sampleCollectionSetCandidates, true⟩] else [])
    ++ [⟨SubTaskKind.cleanupAfterScanHeapRoots, false⟩]
    ++ (if evacuation_failed then [⟨SubTaskKind.restoreRetainedRegions, false⟩] else [])

/-- G1PostEvacuateCollectionSetCleanupTask2's constructor: the sequence of
registrations, as a function of the COMPILER2_OR_JVMCI build flag
(`compiler2`), G1CollectedHeap::has_humongous_reclaim_candidates()
(`has_humongous_candidates`), evacuation_failed(), the collector state's
in_concurrent_start_gc() (`in_concurrent_start`), and UseTLAB && ResizeTLAB
(`resize_tlabs`). -/
def task2_subtasks (compiler2 has_humongous_candidates evacuation_failed
    in_concurrent_start resize_tlabs : Bool) : List SubTaskReg :=
  (if compiler2 then [⟨SubTaskKind.updateDerivedPointers, true⟩] else [])
    ++ (if has_humongous_candidates
        then [⟨SubTaskKind.eagerlyReclaimHumongousObjects, true⟩] else [])
    ++ (if evacuation_failed then
          [⟨SubTaskKind.restorePreservedMarks, false⟩]
            ++ (if !in_concurrent_start
                then [⟨SubTaskKind.clearRetainedRegionBitmaps, false⟩] else [])
        else [])
    ++ [⟨SubTaskKind.redirtyLoggedCards, false⟩]
    ++ (if resize_tlabs then [⟨SubTaskKind.resizeTLABs, false⟩] else [])
    ++ [⟨SubTaskKind.freeCollectionSet, false⟩]

/-- Whether a registration list contains a subtask of the given kind. -/
def hasKind (l : List SubTaskReg) (k : SubTaskKind) : Bool :=
  l.any (fun reg => reg.kind == k)

/-- Claim C8: the evacuation-failure recovery subtasks are instantiated only
in pauses with at least one evacuation failure: RestoreRetainedRegionsTask
(batch 1) and RestorePreservedMarksTask (batch 2) are registered iff
evacuation_failed, and ClearRetainedRegionBitmaps (batch 2) is registered iff
evacuation_failed and the pause is not a concurrent-start pause. -/
theorem evac_failure_subtasks_iff_failures :
    ∀ (ef ss c2 hc ics rt : Bool),
      hasKind (task1_subtasks ef ss) SubTaskKind.restoreRetainedRegions = ef ∧
      hasKind (task2_subtasks c2 hc ef ics rt) SubTaskKind.restorePreservedMarks = ef ∧
      hasKind (task2_subtasks c2 hc ef ics rt) SubTaskKind.clearRetainedRegionBitmaps
        = (ef && !ics) := by
  decide

/-- Modelled from the spec: the batch scheduler (G1BatchedTask, outside these
sources) runs every serial subtask on a single thread, invoking its work
function with worker index 0. -/
def serial_invocation_worker : Nat := 0

/-- Modelled from the spec: the invocations the scheduler issues for the
serial subtasks of a registration list, each with worker index 0. -/
def serial_invocations (l : List SubTaskReg) : List (SubTaskKind × Nat) :=
  (l.filter (fun reg => reg.serial)).map (fun reg => (reg.kind, serial_invocation_worker))

/-- Claim C10: EagerlyReclaimHumongousObjectsTask is registered iff the heap
reports at least one humongous reclaim candidate, it is always registered as
a serial subtask (so its whole heap-region scan runs in a single invocation
with worker index 0), and with no candidates the subtask (and hence its scan)
does not exist at all. -/
theorem humongous_reclaim_serial_iff_candidates :
    ∀ (c2 hc ef ics rt : Bool),
      hasKind (task2_subtasks c2 hc ef ics rt) SubTaskKind.eagerlyReclaimHumongousObjects
        = hc ∧
      (∀ reg ∈ task2_subtasks c2 hc ef ics rt,
        reg.kind = SubTaskKind.eagerlyReclaimHumongousObjects → reg.serial = true) ∧
      ((SubTaskKind.eagerlyReclaimHumongousObjects, 0)
          ∈ serial_invocations (task2_subtasks c2 hc ef ics rt) ↔ hc = true) := by
  decide

/-- Witness for claim C10 at a concrete flag assignment: with humongous
reclaim candidates present, the subtask is registered and invoked serially
with worker index 0. -/
theorem humongous_reclaim_serial_iff_candidates_witness :
    ((SubTaskKind.eagerlyReclaimHumongousObjects, 0)
        ∈ serial_invocations (task2_subtasks true true true false true) ↔ true = true) :=
  (humongous_reclaim_serial_iff_candidates true true true false true).2.2

/-- Witness for claim C8 at a concrete flag assignment: in a pause with
evacuation failures that is not a concurrent start, all three recovery
subtasks are registered. -/
theorem evac_failure_subtasks_iff_failures_witness :
    hasKind (task1_subtasks true true) SubTaskKind.restoreRetainedRegions = true ∧
    hasKind (task2_subtasks true true true false true) SubTaskKind.restorePreservedMarks
      = true ∧
    hasKind (task2_subtasks true true true false true) SubTaskKind.clearRetainedRegionBitmaps
      = (true && !false) :=
  evac_failure_subtasks_iff_failures true true true true false true

/-- The heap-wide and policy state touched by FreeCollectionSetTask's
constructor and destructor: summary used-bytes, the policy's old-generation
allocation tracker and recorded remembered-set lengths, the freed-region
notification flag (G1Policy::cset_regions_freed), the accumulated
failure-used/waste feedback of the old-gen allocation buffer statistics, the
evacuation-info fields set by FreeCSetStats::report, and the transient Eden
set and collection-set containers (as lists of region indices). -/
structure G1GlobalState where
  summary_bytes : Nat
  old_gen_allocated_bytes : Nat
  recorded_rs_lengths : List Nat
  cset_regions_freed_notified : Bool
  failure_used_words : Nat
  failure_waste_words : Nat
  evac_info_regions_freed : Nat
  evac_info_used_before : Nat
  evac_info_used_after : Nat
  eden_regions : List Nat
  collection_set_regions : List Nat
deriving DecidableEq, Repr

/-- FreeCSetStats::report(g1h, evacuation_info): pushes the merged totals into
the evacuation info, decrements the heap's summary bytes by the evacuated
usage, feeds failure used/waste words to the old-gen allocation buffer stats,
and feeds the policy (old-gen allocation tracker, remembered-set length,
freed-region notification). -/
def FreeCSetStats.report (s : FreeCSetStats) (g : G1GlobalState) : G1GlobalState :=
  { g with
    evac_info_regions_freed := s.regions_freed,
    evac_info_used_before := s.before_used_bytes + s.after_used_bytes,
    evac_info_used_after := g.evac_info_used_after + s.after_used_bytes,
    summary_bytes := g.summary_bytes - s.before_used_bytes,
    failure_used_words := g.failure_used_words + s.failure_used_words,
    failure_waste_words := g.failure_waste_words + s.failure_waste_words,
    old_gen_allocated_bytes :=
      g.old_gen_allocated_bytes + s.bytes_allocated_in_old_since_last_gc,
    recorded_rs_lengths := g.recorded_rs_lengths ++ [s.rs_length],
    cset_regions_freed_notified := true }

/-- FreeCollectionSetTask::FreeCollectionSetTask: besides member
initialization, its only heap effect is _g1h->clear_eden(). clear_eden is
modelled from the spec as emptying the transient Eden set. -/
def FreeCollectionSetTask.construct (g : G1GlobalState) : G1GlobalState :=
  { g with eden_regions := [] }

/-- FreeCollectionSetTask::report_statistics: merge the per-worker
FreeCSetStats into a fresh total (exactly once, at teardown) and report it. -/
def FreeCollectionSetTask.report_statistics (worker_stats : List FreeCSetStats)
    (g : G1GlobalState) : G1GlobalState :=
  (worker_stats.foldl FreeCSetStats.merge_stats FreeCSetStats.init).report g

/-- FreeCollectionSetTask::~FreeCollectionSetTask: report_statistics followed
by _g1h->clear_collection_set(), modelled from the spec as emptying the
collection-set container; timing recording has no heap effect. -/
def FreeCollectionSetTask.teardown (worker_stats : List FreeCSetStats)
    (g : G1GlobalState) : G1GlobalState :=
  let g1 := FreeCollectionSetTask.report_statistics worker_stats g
  { g1 with collection_set_regions := [] }

/-- Counterexample to claim C7: the claim says clearing the transient Eden set
happens at subtask teardown, but in the code _g1h->clear_eden() is called in
FreeCollectionSetTask's constructor; the teardown leaves the Eden set
untouched. At a concrete state whose Eden set still holds region 5, the
teardown returns it with Eden set [5], not empty. -/
theorem free_cset_task_teardown_leaves_eden :
    (FreeCollectionSetTask.teardown []
        ⟨0, 0, [], false, 0, 0, 0, 0, 0, [5], [3]⟩).eden_regions = [5] ∧
    (FreeCollectionSetTask.construct
        ⟨0, 0, [], false, 0, 0, 0, 0, 0, [5], [3]⟩).eden_regions = [] := by
  decide

/-- Claim C7 (amended): the single-threaded post-pass at subtask teardown
performs the statistics merge (exactly once, over all per-worker stats), the
heap-wide used-bytes decrement, remembered-set-length and old-gen-allocation
policy feedback, the freed-region notification, and clears the collection-set
container; the transient Eden set, however, is cleared at task construction,
before the parallel work, and is left untouched by the teardown. -/
theorem free_cset_task_lifecycle_effects :
    ∀ (ws : List FreeCSetStats) (g : G1GlobalState),
      (FreeCollectionSetTask.teardown ws g).collection_set_regions = [] ∧
      (FreeCollectionSetTask.teardown ws g).summary_bytes
        = g.summary_bytes
          - (ws.foldl FreeCSetStats.merge_stats FreeCSetStats.init).before_used_bytes ∧
      (FreeCollectionSetTask.teardown ws g).recorded_rs_lengths
        = g.recorded_rs_lengths
          ++ [(ws.foldl FreeCSetStats.merge_stats FreeCSetStats.init).rs_length] ∧
      (FreeCollectionSetTask.teardown ws g).old_gen_allocated_bytes
        = g.old_gen_allocated_bytes
          + (ws.foldl FreeCSetStats.merge_stats
              FreeCSetStats.init).bytes_allocated_in_old_since_last_gc ∧
      (FreeCollectionSetTask.teardown ws g).cset_regions_freed_notified = true ∧
      (FreeCollectionSetTask.teardown ws g).eden_regions = g.eden_regions ∧
      (FreeCollectionSetTask.construct g).eden_regions = [] ∧
      (FreeCollectionSetTask.construct g).collection_set_regions
        = g.collection_set_regions ∧
      (FreeCollectionSetTask.construct g).summary_bytes = g.summary_bytes := by
  intro ws g
  refine ⟨rfl, rfl, rfl, rfl, rfl, rfl, rfl, rfl, rfl⟩

/-- The statistics part of FreeCSetClosure::do_heap_region(r): record the
remembered-set length, then classify the region with the
evacuated-vs-failed logic (G1EvacFailureRegions::contains on the region
index) and account it accordingly. -/
def account_region (efr : List Nat) (gw gb : Nat) (s : FreeCSetStats) (r : HeapRegion) :
    FreeCSetStats :=
  let s1 := s.account_rs_length r
  if efr.contains r.hrm_index then
    s1.account_failed_region gw gb r
  else
    s1.account_evacuated_region r

/-- Serially classifying a region list on a single worker: fold
account_region from fresh statistics. -/
def statsOf (efr : List Nat) (gw gb : Nat) (regions : List HeapRegion) : FreeCSetStats :=
  regions.foldl (account_region efr gw gb) FreeCSetStats.init

/-- The per-region statistics contribution, so that account_region is exactly
merging this contribution into the accumulator. -/
def regionContrib (efr : List Nat) (gw gb : Nat) (r : HeapRegion) : FreeCSetStats :=
  if efr.contains r.hrm_index then
    ⟨0, r.used, if r.is_young then gb else 0,
     r.live_bytes / HeapWordSize, gw - r.live_bytes / HeapWordSize, r.rs_occupied, 0⟩
  else
    ⟨r.used, 0, 0, 0, 0, r.rs_occupied, 1⟩

lemma merge_stats_assoc (a b c : FreeCSetStats) :
    (a.merge_stats b).merge_stats c = a.merge_stats (b.merge_stats c) := by
  cases a; cases b; cases c
  simp [FreeCSetStats.merge_stats]
  omega

lemma merge_stats_comm (a b : FreeCSetStats) :
    a.merge_stats b = b.merge_stats a := by
  cases a; cases b
  simp [FreeCSetStats.merge_stats]
  omega

lemma init_merge_stats (s : FreeCSetStats) :
    FreeCSetStats.init.merge_stats s = s := by
  cases s
  simp [FreeCSetStats.merge_stats, FreeCSetStats.init]

lemma merge_stats_init (s : FreeCSetStats) :
    s.merge_stats FreeCSetStats.init = s := by
  cases s
  simp [FreeCSetStats.merge_stats, FreeCSetStats.init]

lemma account_region_eq_merge (efr : List Nat) (gw gb : Nat) (s : FreeCSetStats)
    (r : HeapRegion) :
    account_region efr gw gb s r = s.merge_stats (regionContrib efr gw gb r) := by
  cases s
  by_cases hc : r.hrm_index ∈ efr <;>
    simp [account_region, regionContrib, hc, FreeCSetStats.account_rs_length,
      FreeCSetStats.account_failed_region, FreeCSetStats.account_evacuated_region,
      FreeCSetStats.merge_stats]

lemma foldl_account_region (efr : List Nat) (gw gb : Nat) (s : FreeCSetStats)
    (l : List HeapRegion) :
    l.foldl (account_region efr gw gb) s = s.merge_stats (statsOf efr gw gb l) := by
  induction l generalizing s with
  | nil => simp [statsOf, merge_stats_init]
  | cons r rs ih =>
    simp only [List.foldl_cons, statsOf]
    rw [ih, ih (account_region efr gw gb FreeCSetStats.init r),
      account_region_eq_merge, account_region_eq_merge, init_merge_stats,
      merge_stats_assoc]

lemma statsOf_append (efr : List Nat) (gw gb : Nat) (l1 l2 : List HeapRegion) :
    statsOf efr gw gb (l1 ++ l2)
      = (statsOf efr gw gb l1).merge_stats (statsOf efr gw gb l2) := by
  simp only [statsOf, List.foldl_append]
  exact foldl_account_region efr gw gb (statsOf efr gw gb l1) l2

lemma statsOf_cons (efr : List Nat) (gw gb : Nat) (r : HeapRegion)
    (l : List HeapRegion) :
    statsOf efr gw gb (r :: l)
      = (regionContrib efr gw gb r).merge_stats (statsOf efr gw gb l) := by
  have h1 : statsOf efr gw gb (r :: l)
      = l.foldl (account_region efr gw gb) (account_region efr gw gb FreeCSetStats.init r) :=
    rfl
  rw [h1, foldl_account_region, account_region_eq_merge, init_merge_stats]

lemma statsOf_perm (efr : List Nat) (gw gb : Nat) :
    ∀ {l1 l2 : List HeapRegion}, l1.Perm l2 →
      statsOf efr gw gb l1 = statsOf efr gw gb l2 := by
  intro l1 l2 hp
  induction hp with
  | nil => rfl
  | cons r hp ih => rw [statsOf_cons, statsOf_cons, ih]
  | swap a b l =>
    rw [statsOf_cons, statsOf_cons, statsOf_cons, statsOf_cons,
      ← merge_stats_assoc, ← merge_stats_assoc,
      merge_stats_comm (regionContrib efr gw gb a) (regionContrib efr gw gb b)]
  | trans hp1 hp2 ih1 ih2 => rw [ih1, ih2]

lemma foldl_merge_stats_acc (s : FreeCSetStats) (l : List FreeCSetStats) :
    l.foldl FreeCSetStats.merge_stats s
      = s.merge_stats (l.foldl FreeCSetStats.merge_stats FreeCSetStats.init) := by
  induction l generalizing s with
  | nil => simp [merge_stats_init]
  | cons x xs ih =>
    simp only [List.foldl_cons]
    rw [ih, ih (FreeCSetStats.init.merge_stats x), init_merge_stats, merge_stats_assoc]

/-- Claim C4: for every partition of the collection set among workers (any
family of per-worker region lists whose disjoint union is the collection
set), the statistics obtained by merging all per-worker FreeCSetStats with
merge_stats at subtask teardown equal the statistics computed by serially
classifying the same region set with the same evacuated-vs-failed logic on a
single worker. The merge itself is invoked exactly once, in the teardown
(FreeCollectionSetTask.teardown via report_statistics), never by
account_region. -/
theorem merged_worker_stats_eq_serial (efr : List Nat) (gw gb : Nat)
    (parts : List (List HeapRegion)) (cset : List HeapRegion)
    (hperm : parts.flatten.Perm cset) :
    (parts.map (statsOf efr gw gb)).foldl FreeCSetStats.merge_stats FreeCSetStats.init
      = statsOf efr gw gb cset := by
  rw [← statsOf_perm efr gw gb hperm]
  clear hperm
  induction parts with
  | nil => rfl
  | cons p ps ih =>
    simp only [List.map_cons, List.foldl_cons, List.flatten]
    rw [foldl_merge_stats_acc, ih, init_merge_stats, statsOf_append]

/-- Witness for claim C4: splitting the spec's Scenario A collection set
(region 1 evacuated, region 2 failed) between two workers and merging their
statistics agrees with serial classification of the two regions in either
order. -/
theorem merged_worker_stats_eq_serial_witness :
    ([[⟨1, RegionKind.young, 4096, 0, 0, true⟩],
      [scenarioFailedRegion]] : List (List HeapRegion)).flatten.Perm
        [scenarioFailedRegion, ⟨1, RegionKind.young, 4096, 0, 0, true⟩] ∧
    ([[⟨1, RegionKind.young, 4096, 0, 0, true⟩],
      [scenarioFailedRegion]].map (statsOf [2] 4096 32768)).foldl
        FreeCSetStats.merge_stats FreeCSetStats.init
      = statsOf [2] 4096 32768
          [scenarioFailedRegion, ⟨1, RegionKind.young, 4096, 0, 0, true⟩] :=
  ⟨by decide,
   merged_worker_stats_eq_serial [2] 4096 32768
     [[⟨1, RegionKind.young, 4096, 0, 0, true⟩], [scenarioFailedRegion]]
     [scenarioFailedRegion, ⟨1, RegionKind.young, 4096, 0, 0, true⟩] (by decide)⟩

/-- Heap state threaded through the collection-set freeing pass: the global
free list and the old-generation set (as region-index lists), the
post-pass state of every processed region, and the worker's FreeCSetStats. -/
structure CSetPassState where
  free_list : List Nat
  old_set : List Nat
  region_after : List (Nat × HeapRegion)
  stats : FreeCSetStats
deriving DecidableEq, Repr

/-- Modelled from the spec: G1CollectedHeap::free_region returns the region to
the global free list as an empty free region, clearing its remembered set and
collection-set membership. -/
def freed_region_state (r : HeapRegion) : HeapRegion :=
  { r with
    kind := RegionKind.freeKind,
    in_collection_set := false,
    used := 0,
    rs_occupied := 0 }

/-- Modelled from the spec: HeapRegion::handle_evacuation_failure retains the
failed region in place as an old region (a failed region is always made old),
removing its collection-set membership. -/
def failed_region_state (r : HeapRegion) : HeapRegion :=
  { r with kind := RegionKind.old, in_collection_set := false }

/-- FreeCSetClosure::handle_evacuated_region(r): account the evacuated
region, then free it (free_region + free-list insertion). -/
def handle_evacuated_region (st : CSetPassState) (r : HeapRegion) : CSetPassState :=
  { st with
    stats := st.stats.account_evacuated_region r,
    free_list := r.hrm_index :: st.free_list,
    region_after := (r.hrm_index, freed_region_state r) :: st.region_after }

/-- FreeCSetClosure::handle_failed_region(r): account the failed region,
update its state for the failed evacuation, and add it to the
old-generation set (under the OldSets lock in the source; the lock's mutual
exclusion is outside this sequential model). -/
def handle_failed_region (gw gb : Nat) (st : CSetPassState) (r : HeapRegion) :
    CSetPassState :=
  { st with
    stats := st.stats.account_failed_region gw gb r,
    old_set := r.hrm_index :: st.old_set,
    region_after := (r.hrm_index, failed_region_state r) :: st.region_after }

/-- FreeCSetClosure::do_heap_region(r): record the remembered-set length,
then route the region to the failed-region handler iff its index is in the
evacuation-failure set, and to the evacuated-region handler otherwise.
(The young-region surviving-words recording only feeds timing/JFR state and
is omitted.) -/
def FreeCSetClosure.do_heap_region (efr : List Nat) (gw gb : Nat) (st : CSetPassState)
    (r : HeapRegion) : CSetPassState :=
  let st1 := { st with stats := st.stats.account_rs_length r }
  if efr.contains r.hrm_index then
    handle_failed_region gw gb st1 r
  else
    handle_evacuated_region st1 r

/-- The free-collection-set pass: every collection-set region is visited
exactly once (FreeCollectionSetTask::do_work via
collection_set_par_iterate_all). -/
def free_cset_pass (efr : List Nat) (gw gb : Nat) (st : CSetPassState)
    (cset : List HeapRegion) : CSetPassState :=
  cset.foldl (FreeCSetClosure.do_heap_region efr gw gb) st

/-- The post-pass state of a collection-set region: failed regions are
retained as old, all others are freed. -/
def cset_region_transform (efr : List Nat) (r : HeapRegion) : HeapRegion :=
  if efr.contains r.hrm_index then failed_region_state r else freed_region_state r

lemma do_heap_region_failed (efr : List Nat) (gw gb : Nat) (st : CSetPassState)
    (r : HeapRegion) (h : r.hrm_index ∈ efr) :
    FreeCSetClosure.do_heap_region efr gw gb st r =
      ⟨st.free_list, r.hrm_index :: st.old_set,
       (r.hrm_index, failed_region_state r) :: st.region_after,
       (st.stats.account_rs_length r).account_failed_region gw gb r⟩ := by
  simp [FreeCSetClosure.do_heap_region, handle_failed_region, h]

lemma do_heap_region_evacuated (efr : List Nat) (gw gb : Nat) (st : CSetPassState)
    (r : HeapRegion) (h : r.hrm_index ∉ efr) :
    FreeCSetClosure.do_heap_region efr gw gb st r =
      ⟨r.hrm_index :: st.free_list, st.old_set,
       (r.hrm_index, freed_region_state r) :: st.region_after,
       (st.stats.account_rs_length r).account_evacuated_region r⟩ := by
  simp [FreeCSetClosure.do_heap_region, handle_evacuated_region, h]

lemma free_cset_pass_free_list (efr : List Nat) (gw gb : Nat) (cset : List HeapRegion) :
    ∀ st : CSetPassState,
      (free_cset_pass efr gw gb st cset).free_list
        = ((cset.filter (fun r => !(efr.contains r.hrm_index))).map
            HeapRegion.hrm_index).reverse ++ st.free_list := by
  induction cset with
  | nil => intro st; rfl
  | cons r rs ih =>
    intro st
    have hstep : free_cset_pass efr gw gb st (r :: rs)
        = free_cset_pass efr gw gb (FreeCSetClosure.do_heap_region efr gw gb st r) rs :=
      rfl
    by_cases hc : r.hrm_index ∈ efr
    · rw [hstep, ih, do_heap_region_failed efr gw gb st r hc]
      simp [List.filter_cons, hc]
    · rw [hstep, ih, do_heap_region_evacuated efr gw gb st r hc]
      simp [List.filter_cons, hc]

lemma free_cset_pass_old_set (efr : List Nat) (gw gb : Nat) (cset : List HeapRegion) :
    ∀ st : CSetPassState,
      (free_cset_pass efr gw gb st cset).old_set
        = ((cset.filter (fun r => efr.contains r.hrm_index)).map
            HeapRegion.hrm_index).reverse ++ st.old_set := by
  induction cset with
  | nil => intro st; rfl
  | cons r rs ih =>
    intro st
    have hstep : free_cset_pass efr gw gb st (r :: rs)
        = free_cset_pass efr gw gb (FreeCSetClosure.do_heap_region efr gw gb st r) rs :=
      rfl
    by_cases hc : r.hrm_index ∈ efr
    · rw [hstep, ih, do_heap_region_failed efr gw gb st r hc]
      simp [List.filter_cons, hc]
    · rw [hstep, ih, do_heap_region_evacuated efr gw gb st r hc]
      simp [List.filter_cons, hc]

lemma free_cset_pass_region_after (efr : List Nat) (gw gb : Nat)
    (cset : List HeapRegion) :
    ∀ st : CSetPassState,
      (free_cset_pass efr gw gb st cset).region_after
        = (cset.map (fun r => (r.hrm_index, cset_region_transform efr r))).reverse
            ++ st.region_after := by
  induction cset with
  | nil => intro st; rfl
  | cons r rs ih =>
    intro st
    have hstep : free_cset_pass efr gw gb st (r :: rs)
        = free_cset_pass efr gw gb (FreeCSetClosure.do_heap_region efr gw gb st r) rs :=
      rfl
    by_cases hc : r.hrm_index ∈ efr
    · rw [hstep, ih, do_heap_region_failed efr gw gb st r hc]
      simp [cset_region_transform, hc]
    · rw [hstep, ih, do_heap_region_evacuated efr gw gb st r hc]
      simp [cset_region_transform, hc]

lemma cset_region_transform_not_in_cset (efr : List Nat) (r : HeapRegion) :
    (cset_region_transform efr r).in_collection_set = false := by
  unfold cset_region_transform
  cases efr.contains r.hrm_index <;>
    simp [failed_region_state, freed_region_state]

/-- Claim C1: every region that is a member of the collection set at the
start of the free-collection-set pass ends the pass in exactly one of the
free list or the old-generation set: a region whose index is in the
evacuation-failure set is handled as failed and added to the old-generation
set, every other collection-set region is freed to the free list — never
both, never neither — and its post-pass state is no longer marked as a
collection-set member. The hypotheses say the collection-set regions start
outside the free list and old-generation set (the region-kind /
collection-set mutual-exclusion invariant the source enforces at every
safepoint). -/
theorem free_cset_exactly_one_of (efr : List Nat) (gw gb : Nat)
    (cset : List HeapRegion) (st0 : CSetPassState)
    (hfree : ∀ r ∈ cset, r.hrm_index ∉ st0.free_list)
    (hold : ∀ r ∈ cset, r.hrm_index ∉ st0.old_set) :
    ∀ r ∈ cset,
      (r.hrm_index ∈ efr →
        r.hrm_index ∈ (free_cset_pass efr gw gb st0 cset).old_set ∧
        r.hrm_index ∉ (free_cset_pass efr gw gb st0 cset).free_list) ∧
      (r.hrm_index ∉ efr →
        r.hrm_index ∈ (free_cset_pass efr gw gb st0 cset).free_list ∧
        r.hrm_index ∉ (free_cset_pass efr gw gb st0 cset).old_set) ∧
      ∃ r2, (r.hrm_index, r2) ∈ (free_cset_pass efr gw gb st0 cset).region_after ∧
        r2.in_collection_set = false := by
  intro r hr
  rw [free_cset_pass_free_list, free_cset_pass_old_set, free_cset_pass_region_after]
  refine ⟨fun hc => ⟨?_, ?_⟩, fun hc => ⟨?_, ?_⟩, ?_⟩
  · refine List.mem_append.mpr (Or.inl ?_)
    rw [List.mem_reverse]
    exact List.mem_map.mpr ⟨r, List.mem_filter.mpr ⟨hr, by simp [hc]⟩, rfl⟩
  · intro hmem
    rcases List.mem_append.mp hmem with hmem | hmem
    · rw [List.mem_reverse] at hmem
      rcases List.mem_map.mp hmem with ⟨r2, hr2, hidx⟩
      have h2 := (List.mem_filter.mp hr2).2
      rw [hidx] at h2
      simp at h2
      exact h2 hc
    · exact hfree r hr hmem
  · refine List.mem_append.mpr (Or.inl ?_)
    rw [List.mem_reverse]
    exact List.mem_map.mpr ⟨r, List.mem_filter.mpr ⟨hr, by simp [hc]⟩, rfl⟩
  · intro hmem
    rcases List.mem_append.mp hmem with hmem | hmem
    · rw [List.mem_reverse] at hmem
      rcases List.mem_map.mp hmem with ⟨r2, hr2, hidx⟩
      have h2 := (List.mem_filter.mp hr2).2
      rw [hidx] at h2
      simp at h2
      exact hc h2
    · exact hold r hr hmem
  · refine ⟨cset_region_transform efr r, ?_, cset_region_transform_not_in_cset efr r⟩
    refine List.mem_append.mpr (Or.inl ?_)
    rw [List.mem_reverse]
    exact List.mem_map.mpr ⟨r, hr, rfl⟩

/-- Witness for claim C1, at the spec's Scenario A: collection set = {region 1
evacuated, region 2 failed}, evacuation-failure set = {2}; region 1 ends on
the free list only, region 2 in the old-generation set only, and both end
unmarked as collection-set members. -/
theorem free_cset_exactly_one_of_witness :
    (∀ r ∈ [(⟨1, RegionKind.young, 4096, 0, 0, true⟩ : HeapRegion), scenarioFailedRegion],
      r.hrm_index ∉ (⟨[], [], [], FreeCSetStats.init⟩ : CSetPassState).free_list) ∧
    (∀ r ∈ [(⟨1, RegionKind.young, 4096, 0, 0, true⟩ : HeapRegion), scenarioFailedRegion],
      r.hrm_index ∉ (⟨[], [], [], FreeCSetStats.init⟩ : CSetPassState).old_set) ∧
    (∀ r ∈ [(⟨1, RegionKind.young, 4096, 0, 0, true⟩ : HeapRegion), scenarioFailedRegion],
      (r.hrm_index ∈ ([2] : List Nat) →
        r.hrm_index ∈ (free_cset_pass [2] 4096 32768 ⟨[], [], [], FreeCSetStats.init⟩
          [⟨1, RegionKind.young, 4096, 0, 0, true⟩, scenarioFailedRegion]).old_set ∧
        r.hrm_index ∉ (free_cset_pass [2] 4096 32768 ⟨[], [], [], FreeCSetStats.init⟩
          [⟨1, RegionKind.young, 4096, 0, 0, true⟩, scenarioFailedRegion]).free_list) ∧
      (r.hrm_index ∉ ([2] : List Nat) →
        r.hrm_index ∈ (free_cset_pass [2] 4096 32768 ⟨[], [], [], FreeCSetStats.init⟩
          [⟨1, RegionKind.young, 4096, 0, 0, true⟩, scenarioFailedRegion]).free_list ∧
        r.hrm_index ∉ (free_cset_pass [2] 4096 32768 ⟨[], [], [], FreeCSetStats.init⟩
          [⟨1, RegionKind.young, 4096, 0, 0, true⟩, scenarioFailedRegion]).old_set) ∧
      ∃ r2, (r.hrm_index, r2) ∈ (free_cset_pass [2] 4096 32768
          ⟨[], [], [], FreeCSetStats.init⟩
          [⟨1, RegionKind.young, 4096, 0, 0, true⟩, scenarioFailedRegion]).region_after ∧
        r2.in_collection_set = false) :=
  ⟨by decide, by decide,
   free_cset_exactly_one_of [2] 4096 32768
     [⟨1, RegionKind.young, 4096, 0, 0, true⟩, scenarioFailedRegion]
     ⟨[], [], [], FreeCSetStats.init⟩ (by decide) (by decide)⟩

/-- Accumulated effects of the humongous reclamation scan
(G1FreeHumongousRegionClosure's counters plus the heap effects of
free_humongous_region and the marking notification). -/
structure ReclaimState where
  humongous_objects_reclaimed : Nat
  humongous_regions_reclaimed : Nat
  freed_bytes : Nat
  freed_regions : List Nat
  detached_regions : List Nat
  marking_notified : List Nat
deriving DecidableEq, Repr

/-- G1FreeHumongousRegionClosure::is_reclaimable(region_idx): a humongous
start region is reclaimable iff it is still flagged as a humongous-reclaim
candidate (G1CollectedHeap::is_humongous_reclaim_candidate); this is the only
condition consulted. -/
def G1FreeHumongousRegionClosure.is_reclaimable (candidates : List Nat)
    (region_idx : Nat) : Bool :=
  candidates.contains region_idx

/-- The free_humongous_region lambda applied to one region spanned by the
object (given as its index and used-byte count): count its bytes as freed,
detach it from its containing set (set_containing_set(nullptr)), bump the
regions-reclaimed counter, and free it
(G1CollectedHeap::free_humongous_region). -/
def free_humongous_region (st : ReclaimState) (reg : Nat × Nat) : ReclaimState :=
  { st with
    freed_bytes := st.freed_bytes + reg.2,
    detached_regions := st.detached_regions ++ [reg.1],
    humongous_regions_reclaimed := st.humongous_regions_reclaimed + 1,
    freed_regions := st.freed_regions ++ [reg.1] }

set_option linter.unusedVariables false in
/-- G1FreeHumongousRegionClosure::do_heap_region_index(region_index) on a
humongous start region. `obj_is_type_array` is oop::is_typeArray() of the
object at the region's bottom; `span` lists every region spanned by the
object with its used bytes (humongous_obj_regions_iterate); `rs_size` and
`marked_in_bitmap` are the region's remembered-set size and the
concurrent-mark bitmap bit for the object, available to the closure but
never consulted for the reclaim decision. Returns the closure state, or
an error carrying the state at the moment the guarantee fires (before any
region is freed) when the object is not a type array. -/
def do_heap_region_index (candidates : List Nat) (region_index : Nat)
    (obj_is_type_array : Bool) (span : List (Nat × Nat)) (rs_size : Nat)
    (marked_in_bitmap : Bool) (st : ReclaimState) : Except ReclaimState ReclaimState :=
  if !(G1FreeHumongousRegionClosure.is_reclaimable candidates region_index) then
    Except.ok st
  else if !obj_is_type_array then
    Except.error st
  else
    let st1 := { st with
      marking_notified := st.marking_notified ++ [region_index],
      humongous_objects_reclaimed := st.humongous_objects_reclaimed + 1 }
    Except.ok (span.foldl free_humongous_region st1)

lemma foldl_free_humongous_region (span : List (Nat × Nat)) :
    ∀ st : ReclaimState,
      (span.foldl free_humongous_region st).freed_regions
          = st.freed_regions ++ span.map Prod.fst ∧
      (span.foldl free_humongous_region st).detached_regions
          = st.detached_regions ++ span.map Prod.fst ∧
      (span.foldl free_humongous_region st).freed_bytes
          = st.freed_bytes + (span.map Prod.snd).sum ∧
      (span.foldl free_humongous_region st).humongous_regions_reclaimed
          = st.humongous_regions_reclaimed + span.length ∧
      (span.foldl free_humongous_region st).humongous_objects_reclaimed
          = st.humongous_objects_reclaimed ∧
      (span.foldl free_humongous_region st).marking_notified
          = st.marking_notified := by
  induction span with
  | nil => intro st; simp
  | cons reg rest ih =>
    intro st
    have h := ih (free_humongous_region st reg)
    refine ⟨?_, ?_, ?_, ?_, ?_, ?_⟩
    · simp only [List.foldl_cons]
      rw [h.1]
      simp [free_humongous_region]
    · simp only [List.foldl_cons]
      rw [h.2.1]
      simp [free_humongous_region]
    · simp only [List.foldl_cons]
      rw [h.2.2.1]
      simp [free_humongous_region, Nat.add_assoc]
    · simp only [List.foldl_cons]
      rw [h.2.2.2.1]
      simp [free_humongous_region, Nat.add_assoc, Nat.add_comm, Nat.add_left_comm]
    · simp only [List.foldl_cons]
      rw [h.2.2.2.2.1]
      simp [free_humongous_region]
    · simp only [List.foldl_cons]
      rw [h.2.2.2.2.2]
      simp [free_humongous_region]

/-- Claim C5: during the humongous reclamation scan, a humongous start region
is reclaimed iff it is still flagged as a humongous-reclaim candidate: if not
a candidate, the closure returns with no effect at all; if a candidate (with
the expected type-array object), every region spanned by the object is freed
and detached from its containing set, its bytes are counted as freed, and the
object is counted reclaimed (with the marking subsystem notified). The
remembered-set size and mark-bitmap liveness inputs are never consulted: the
outcome is identical for any two values of them. -/
theorem humongous_reclaim_iff_candidate (candidates : List Nat) (region_index : Nat)
    (span : List (Nat × Nat)) (rs_size : Nat) (marked_in_bitmap : Bool)
    (st : ReclaimState) :
    (G1FreeHumongousRegionClosure.is_reclaimable candidates region_index
        = candidates.contains region_index) ∧
    (candidates.contains region_index = false →
      do_heap_region_index candidates region_index true span rs_size marked_in_bitmap st
        = Except.ok st) ∧
    (candidates.contains region_index = true →
      ∃ st2,
        do_heap_region_index candidates region_index true span rs_size marked_in_bitmap st
          = Except.ok st2 ∧
        st2.freed_regions = st.freed_regions ++ span.map Prod.fst ∧
        st2.detached_regions = st.detached_regions ++ span.map Prod.fst ∧
        st2.freed_bytes = st.freed_bytes + (span.map Prod.snd).sum ∧
        st2.humongous_regions_reclaimed
          = st.humongous_regions_reclaimed + span.length ∧
        st2.humongous_objects_reclaimed = st.humongous_objects_reclaimed + 1 ∧
        st2.marking_notified = st.marking_notified ++ [region_index]) ∧
    (∀ (rs2 : Nat) (m2 : Bool) (ta : Bool),
      do_heap_region_index candidates region_index ta span rs_size marked_in_bitmap st
        = do_heap_region_index candidates region_index ta span rs2 m2 st) := by
  refine ⟨rfl, fun hc => ?_, fun hc => ?_, fun rs2 m2 ta => rfl⟩
  · have hc2 : region_index ∉ candidates := by simpa using hc
    simp [do_heap_region_index, G1FreeHumongousRegionClosure.is_reclaimable, hc2]
  · have hc2 : region_index ∈ candidates := by simpa using hc
    have h := foldl_free_humongous_region span
      { st with
        marking_notified := st.marking_notified ++ [region_index],
        humongous_objects_reclaimed := st.humongous_objects_reclaimed + 1 }
    refine ⟨span.foldl free_humongous_region
      { st with
        marking_notified := st.marking_notified ++ [region_index],
        humongous_objects_reclaimed := st.humongous_objects_reclaimed + 1 },
      ?_, h.1, h.2.1, h.2.2.1, h.2.2.2.1, by rw [h.2.2.2.2.1], by rw [h.2.2.2.2.2]⟩
    simp [do_heap_region_index, G1FreeHumongousRegionClosure.is_reclaimable, hc2]

/-- Witness for claim C5, at the spec's Scenario B shape: region 7 is a
flagged candidate holding a two-region type-array object; both spanned
regions are freed and detached, and one object is counted reclaimed. -/
theorem humongous_reclaim_iff_candidate_witness :
    (([7] : List Nat).contains 7 = true) ∧
    (∃ st2,
      do_heap_region_index [7] 7 true [(7, 32768), (8, 4096)] 5 false
          ⟨0, 0, 0, [], [], []⟩
        = Except.ok st2 ∧
      st2.freed_regions = ([] : List Nat) ++ [(7, 32768), (8, 4096)].map Prod.fst ∧
      st2.detached_regions = ([] : List Nat) ++ [(7, 32768), (8, 4096)].map Prod.fst ∧
      st2.freed_bytes = 0 + ([(7, 32768), (8, 4096)].map Prod.snd).sum ∧
      st2.humongous_regions_reclaimed = 0 + [(7, 32768), (8, 4096)].length ∧
      st2.humongous_objects_reclaimed = 0 + 1 ∧
      st2.marking_notified = ([] : List Nat) ++ [7]) :=
  ⟨by decide,
   (humongous_reclaim_iff_candidate [7] 7 [(7, 32768), (8, 4096)] 5 false
     ⟨0, 0, 0, [], [], []⟩).2.2.1 (by decide)⟩

/-- Claim C6: for a humongous region selected for reclamation (a flagged
candidate), if the object at the region's bottom is not a type array the
guarantee fires and the process aborts before any region is freed: the
closure returns the error outcome carrying exactly the input state (no
freed region, no counter change); a successful (ok) outcome on a candidate
region is only ever produced with a type-array object. -/
theorem humongous_reclaim_guarantee_type_array (candidates : List Nat)
    (region_index : Nat) (span : List (Nat × Nat)) (rs_size : Nat)
    (marked_in_bitmap : Bool) (st : ReclaimState)
    (hc : candidates.contains region_index = true) :
    do_heap_region_index candidates region_index false span rs_size marked_in_bitmap st
      = Except.error st ∧
    (∀ st2,
      do_heap_region_index candidates region_index false span rs_size marked_in_bitmap st
        ≠ Except.ok st2) ∧
    (∀ (ta : Bool) (st2 : ReclaimState),
      do_heap_region_index candidates region_index ta span rs_size marked_in_bitmap st
        = Except.ok st2 → ta = true) := by
  have hc2 : region_index ∈ candidates := by simpa using hc
  have herr : do_heap_region_index candidates region_index false span rs_size
      marked_in_bitmap st = Except.error st := by
    simp [do_heap_region_index, G1FreeHumongousRegionClosure.is_reclaimable, hc2]
  refine ⟨herr, fun st2 h => by rw [herr] at h; exact Except.noConfusion h, ?_⟩
  intro ta st2 hok
  cases ta
  · rw [herr] at hok
    exact Except.noConfusion hok
  · rfl

/-- Witness for claim C6: region 7 is a flagged candidate whose object is not
a type array; the closure aborts with the input state unchanged. -/
theorem humongous_reclaim_guarantee_type_array_witness :
    (([7] : List Nat).contains 7 = true) ∧
    do_heap_region_index [7] 7 false [(7, 32768), (8, 4096)] 5 false
        ⟨0, 0, 0, [], [], []⟩
      = Except.error ⟨0, 0, 0, [], [], []⟩ :=
  ⟨by decide,
   (humongous_reclaim_guarantee_type_array [7] 7 [(7, 32768), (8, 4096)] 5 false
     ⟨0, 0, 0, [], [], []⟩ (by decide)).1⟩

/-- State of the concurrent buffer-claiming loop in
RedirtyLoggedCardsTask::do_work. The buffer nodes form a fixed singly linked
list, modelled as indices 0..n-1 with node i's next() = i+1 and n standing
for nullptr. `head` is the shared _nodes pointer (as the index of the first
unclaimed node), `locals` is each worker's local `next` pointer (none before
its initial Atomic::load), and `processed` logs each (worker, node) pair
whose apply_to_buffer ran, in claim order. -/
structure DrainState where
  head : Nat
  locals : List (Option Nat)
  processed : List (Nat × Nat)
deriving DecidableEq, Repr

/-- Initial drain state: the shared pointer at the list head, no worker has
loaded it yet, nothing processed. -/
def drainInit (num_workers : Nat) : DrainState :=
  ⟨0, List.replicate num_workers none, []⟩

/-- One atomic step of worker `w` in RedirtyLoggedCardsTask::do_work, for a
node list of length `n`: a worker that has not started performs the initial
Atomic::load of _nodes; a worker whose local next is null has exited its
loop (no-op); otherwise the worker executes one loop iteration around
Atomic::cmpxchg(&_nodes, node, node->next()): on success (the shared head
still equals its node) it claims and processes the node and advances to
node->next(); on failure it adopts the head value the cmpxchg returned. -/
def drainStep (n : Nat) (s : DrainState) (w : Nat) : DrainState :=
  match s.locals.get? w with
  | none => s
  | some none => { s with locals := s.locals.set w (some s.head) }
  | some (some i) =>
    if i = n then
      s
    else if s.head = i then
      { head := i + 1,
        locals := s.locals.set w (some (i + 1)),
        processed := s.processed ++ [(w, i)] }
    else
      { s with locals := s.locals.set w (some s.head) }

/-- Run the claiming loop under an arbitrary interleaving: `sched` is the
sequence of worker indices granted the next atomic step. -/
def drainRun (n num_workers : Nat) (sched : List Nat) : DrainState :=
  sched.foldl (drainStep n) (drainInit num_workers)

/-- Invariant of the claiming loop: the worker count is fixed, the shared
head never passes the end of the list, the processed log is exactly the
nodes before the head — each node claimed exactly once, in list order — and
a worker can only see the null next pointer once the shared list is
exhausted. -/
def DrainInv (n num_workers : Nat) (s : DrainState) : Prop :=
  s.locals.length = num_workers ∧
  s.head ≤ n ∧
  s.processed.map Prod.snd = List.range s.head ∧
  ∀ l ∈ s.locals, ∀ i : Nat, l = some i → i = n → s.head = n

lemma drainInit_inv (n num_workers : Nat) : DrainInv n num_workers (drainInit num_workers) := by
  refine ⟨List.length_replicate _ _, Nat.zero_le n, rfl, ?_⟩
  intro l hl i hi
  rw [List.eq_of_mem_replicate hl] at hi
  exact Option.noConfusion hi

lemma drainStep_inv (n num_workers : Nat) (s : DrainState) (w : Nat)
    (h : DrainInv n num_workers s) : DrainInv n num_workers (drainStep n s w) := by
  obtain ⟨hlen, hhead, hproc, hloc⟩ := h
  cases hw : s.locals.get? w with
  | none =>
    simp only [drainStep, hw]
    exact ⟨hlen, hhead, hproc, hloc⟩
  | some l =>
    cases l with
    | none =>
      simp only [drainStep, hw]
      refine ⟨by simpa using hlen, hhead, hproc, ?_⟩
      intro l2 hl2 i hi hin
      rcases List.mem_or_eq_of_mem_set hl2 with hl2 | hl2
      · exact hloc l2 hl2 i hi hin
      · subst hl2
        have hsi : s.head = i := Option.some.inj hi
        exact hsi.trans hin
    | some i =>
      by_cases hin : i = n
      · simp only [drainStep, hw, if_pos hin]
        exact ⟨hlen, hhead, hproc, hloc⟩
      · by_cases hcas : s.head = i
        · simp only [drainStep, hw, if_neg hin, if_pos hcas]
          have hlt : i < n := by
            rcases Nat.lt_or_ge i n with h1 | h1
            · exact h1
            · exact absurd (Nat.le_antisymm (hcas ▸ hhead) h1) hin
          refine ⟨by simpa using hlen, hlt, ?_, ?_⟩
          · show (s.processed ++ [(w, i)]).map Prod.snd = List.range (i + 1)
            simp only [List.map_append, hproc, hcas, List.range_succ]
            simp
          · intro l2 hl2 j hj hjn
            show i + 1 = n
            rcases List.mem_or_eq_of_mem_set hl2 with hl2 | hl2
            · exfalso
              have hsn := hloc l2 hl2 j hj hjn
              rw [hcas] at hsn
              exact hin hsn
            · subst hl2
              have : i + 1 = j := Option.some.inj hj
              omega
        · simp only [drainStep, hw, if_neg hin, if_neg hcas]
          refine ⟨by simpa using hlen, hhead, hproc, ?_⟩
          intro l2 hl2 j hj hjn
          rcases List.mem_or_eq_of_mem_set hl2 with hl2 | hl2
          · exact hloc l2 hl2 j hj hjn
          · subst hl2
            have hsj : s.head = j := Option.some.inj hj
            exact hsj.trans hjn

lemma drainRun_inv (n num_workers : Nat) (sched : List Nat) :
    DrainInv n num_workers (drainRun n num_workers sched) := by
  suffices h : ∀ s : DrainState, DrainInv n num_workers s →
      DrainInv n num_workers (sched.foldl (drainStep n) s) by
    exact h (drainInit num_workers) (drainInit_inv n num_workers)
  induction sched with
  | nil => intro s hs; exact hs
  | cons w ws ih =>
    intro s hs
    exact ih (drainStep n s w) (drainStep_inv n num_workers s w hs)

/-- Modelled from the spec: ~RedirtyLoggedCardsTask merges the redirty queue
set's remaining buffer lists back into the shared dirty-card queue set
(G1DirtyCardQueueSet::merge_bufferlists) and the redirty queue set is then
verified empty. -/
def redirty_teardown_merge (dcq rdcqs : List Nat) : List Nat × List Nat :=
  (dcq ++ rdcqs, [])

/-- Claim C9: under every interleaving of any number of workers running the
card-redirtying claiming loop, the lock-free buffer list is drained exactly
once: at any point the multiset of processed nodes is exactly the claimed
prefix with no duplicates (no node processed twice), and once every worker
has exited its loop (its local next pointer is null), all n nodes have been
processed, each exactly once and each by the single worker that logged it;
at teardown the remaining buffer lists are merged back into the shared
dirty-card queue set, which is left empty. -/
theorem redirty_drain_exactly_once (n num_workers : Nat) (sched : List Nat)
    (hw : 0 < num_workers)
    (hdone : ∀ l ∈ (drainRun n num_workers sched).locals, l = some n) :
    ((drainRun n num_workers sched).processed.map Prod.snd = List.range n ∧
      ((drainRun n num_workers sched).processed.map Prod.snd).Nodup) ∧
    (∀ dcq rdcqs : List Nat, (redirty_teardown_merge dcq rdcqs).2 = []) := by
  obtain ⟨hlen, hhead, hproc, hloc⟩ := drainRun_inv n num_workers sched
  have hne : (drainRun n num_workers sched).locals ≠ [] := by
    intro hemp
    rw [hemp] at hlen
    simp at hlen
    omega
  obtain ⟨l0, hl0⟩ := List.exists_mem_of_ne_nil _ hne
  have hherd : (drainRun n num_workers sched).head = n :=
    hloc l0 hl0 n (hdone l0 hl0) rfl
  have hfinal : (drainRun n num_workers sched).processed.map Prod.snd = List.range n := by
    rw [hproc, hherd]
  refine ⟨⟨hfinal, ?_⟩, fun dcq rdcqs => rfl⟩
  rw [hfinal]
  exact List.nodup_range n

/-- Witness for claim C9: two workers, two buffer nodes, and a concrete
interleaving in which worker 0 loads and claims node 0, worker 1 loads and
claims node 1, and worker 0 then fails its compare-and-swap and observes the
empty list: both workers exit, and the processed log is node 0 by worker 0
and node 1 by worker 1, each exactly once. -/
theorem redirty_drain_exactly_once_witness :
    (0 < 2 ∧ ∀ l ∈ (drainRun 2 2 [0, 0, 1, 1, 0]).locals, l = some 2) ∧
    (((drainRun 2 2 [0, 0, 1, 1, 0]).processed.map Prod.snd = List.range 2 ∧
      ((drainRun 2 2 [0, 0, 1, 1, 0]).processed.map Prod.snd).Nodup) ∧
     (∀ dcq rdcqs : List Nat, (redirty_teardown_merge dcq rdcqs).2 = [])) :=
  ⟨⟨by decide, by decide⟩,
   redirty_drain_exactly_once 2 2 [0, 0, 1, 1, 0] (by decide) (by decide)⟩
